import Mathlib

/-!
Shallow embedding of `vtkThreadedCallbackQueue` (vtkThreadedCallbackQueue.cxx).

The pool owns a FIFO queue of type-erased invokers, a resizable collection of
worker-thread handles, a desired thread count, and the `Empty`, `Destroying`,
`Running` flags.  Every mutation of this shared state in the source happens
inside one mutex-protected region; the embedding renders each such locked
region as one atomic transition on `PoolState`.  Invokers are identified by
`Nat` labels (their execution effects are external to the pool).  A worker
thread handle is `Option Int`: `some id` is a spawned thread whose
`ThreadWorker` carries ordinal id `id` (an `int` in the source), `none` is a
default-constructed (not spawned) `std::thread` slot.

Administrative calls on the outer pool are forwarded to the single-threaded
internal controller, which executes their bodies one at a time in submission
order; the definitions below are those serialized bodies.  The controller
itself has a null controller, so its own administrative calls run the same
bodies synchronously — which is exactly what the constructor does.
-/

namespace vtkThreadedCallbackQueue

/-- State of one `vtkThreadedCallbackQueue` object: the invoker queue and the
fields set up by the constructor's initializer list. -/
structure PoolState where
  InvokerQueue : List Nat
  Empty : Bool
  Destroying : Bool
  Running : Bool
  NumberOfThreads : Int
  Threads : List (Option Int)
deriving DecidableEq, Repr

/-- Result of one serialized administrative body: the state it leaves behind,
the thread handles it joined (in join order), and whether it called
`ConditionVariable.notify_all()`. -/
structure AdminResult where
  state : PoolState
  joined : List (Option Int)
  notifiedAll : Bool
deriving DecidableEq, Repr

/-- ThreadWorker::OnHold: the worker blocks on the condition variable while its
id is in bounds, the queue is not being destroyed, the pool is running and the
invoker queue is empty. -/
def OnHold (s : PoolState) (threadId : Int) : Bool :=
  decide (threadId < s.NumberOfThreads) && !s.Destroying && s.Running &&
    s.InvokerQueue.isEmpty

/-- ThreadWorker::Continue: the worker may pop when its id is in bounds, the
pool is running and the invoker queue is non-empty. -/
def Continue (s : PoolState) (threadId : Int) : Bool :=
  decide (threadId < s.NumberOfThreads) && s.Running &&
    !s.InvokerQueue.isEmpty

/-- ThreadWorker::Pop, locked region: after the condition-variable wait has
exited (its exit condition is `!OnHold`), the worker checks `Continue`; on
failure it returns `false` (`none` here) and its loop ends; on success it moves
the front invoker out of the queue, updates `Empty` under the same lock, and
(after unlocking) runs the invoker — returned here as the first component. -/
def Pop (s : PoolState) (threadId : Int) : Option (Nat × PoolState) :=
  if Continue s threadId then
    match s.InvokerQueue with
    | [] => none
    | invoker :: rest =>
      some (invoker, { s with InvokerQueue := rest, Empty := rest.isEmpty })
  else none

/-- ThreadWorker::operator(), `while (this->Pop());`, bounded by the number of
iterations one worker can make when no concurrent producer refills the queue:
each successful `Pop` removes one invoker, so `InvokerQueue.length` steps
suffice.  Returns the invokers this worker popped and ran, in order, and the
final pool state. -/
def runWorkerFuel : Nat → Int → PoolState → List Nat × PoolState
  | 0, _, s => ([], s)
  | fuel + 1, threadId, s =>
    match Pop s threadId with
    | none => ([], s)
    | some (invoker, s') =>
      let r := runWorkerFuel fuel threadId s'
      (invoker :: r.1, r.2)

/-- One worker's loop run to quiescence: fuel `InvokerQueue.length` is enough
because each `Pop` shortens the queue (proved in `runWorkerFuel_enough`). -/
def runWorker (threadId : Int) (s : PoolState) : List Nat × PoolState :=
  runWorkerFuel s.InvokerQueue.length threadId s

/-- std::vector<std::thread>::resize: keep the first `n` handles, pad with
default-constructed (not spawned) handles when growing. -/
def resize (ts : List (Option Int)) (n : Nat) : List (Option Int) :=
  ts.take n ++ List.replicate (n - ts.length) none

/-- One step of the `std::generate_n(std::back_inserter(this->Threads), ...)`
call in `SetNumberOfThreads`: the generator lambda computes
`static_cast<int>(this->Threads.size() - 1)` BEFORE `back_insert_iterator`
push_backs its result, so the appended worker's id is the vector's length
before the append, minus one. -/
def spawnOne (ts : List (Option Int)) : List (Option Int) :=
  ts ++ [some ((ts.length : Int) - 1)]

/-- The `generate_n` loop: append `count` workers, one `spawnOne` at a time. -/
def spawnMissing : Nat → List (Option Int) → List (Option Int)
  | 0, ts => ts
  | count + 1, ts => spawnMissing count (spawnOne ts)

/-- Body of `SetNumberOfThreads(numberOfThreads)` as run (serialized) on the
controller.  `size == numberOfThreads` is a no-op; otherwise the desired count
is stored (under the mutex only when shrinking a running pool — the lock choice
does not change the state reached); a non-running pool just resizes its handle
vector; a running pool either spawns the missing workers with `generate_n` or,
when shrinking, notifies all waiters, joins the handles from index
`NumberOfThreads` on (`Sync(this->NumberOfThreads)`), and truncates the handle
vector. -/
def SetNumberOfThreads (s : PoolState) (numberOfThreads : Int) : AdminResult :=
  let size : Int := (s.Threads.length : Int)
  if size = numberOfThreads then
    { state := s, joined := [], notifiedAll := false }
  else
    let s' : PoolState := { s with NumberOfThreads := numberOfThreads }
    if !s'.Running then
      { state := { s' with Threads := resize s'.Threads numberOfThreads.toNat }
        joined := [], notifiedAll := false }
    else if size < numberOfThreads then
      { state :=
          { s' with Threads := spawnMissing (numberOfThreads - size).toNat s'.Threads }
        joined := [], notifiedAll := false }
    else
      { state := { s' with Threads := s'.Threads.take numberOfThreads.toNat }
        joined := s'.Threads.drop s'.NumberOfThreads.toNat
        notifiedAll := true }

/-- Body of `Stop()`: a no-op when not running; otherwise clear `Running` under
the mutex, notify all waiters, and `Sync()` — join every thread handle. -/
def Stop (s : PoolState) : AdminResult :=
  if !s.Running then { state := s, joined := [], notifiedAll := false }
  else
    { state := { s with Running := false }, joined := s.Threads
      notifiedAll := true }

/-- Dense worker handles: slot `i` holds a spawned worker with ordinal id
`i`, for `i = 0 .. len - 1`. -/
def workerIds (len : Nat) : List (Option Int) :=
  (List.range len).map fun i => some (Int.ofNat i)

/-- Body of `Start()`: a no-op when running; otherwise set `Running` and
`std::generate` over the handle vector with `++threadId` starting from `-1`,
so slot `i` receives a spawned worker with ordinal id `i`. -/
def Start (s : PoolState) : PoolState :=
  if s.Running then s
  else { s with Running := true, Threads := workerIds s.Threads.length }

/-- Destructor body after `Controller = nullptr` has completed all pending
administrative tasks: when running, set `Destroying` under the mutex, notify
all waiters and `Sync()` (join every handle); otherwise nothing. -/
def destructorBody (s : PoolState) : AdminResult :=
  if s.Running then
    { state := { s with Destroying := true }, joined := s.Threads
      notifiedAll := true }
  else { state := s, joined := [], notifiedAll := false }

/-- Modelled from the spec: `Push` (the submission template lives in the
header, which is not part of the shown sources) "constructs an Invoker,
appends it to the tail of the Task Queue under the Pool mutex, updates the
empty flag, and signals one waiting worker". -/
def Push (s : PoolState) (invoker : Nat) : PoolState :=
  let q := s.InvokerQueue ++ [invoker]
  { s with InvokerQueue := q, Empty := q.isEmpty }

/-- The three lines `PrintSelf` writes about the pool (after the superclass
part), while holding the mutex. -/
structure PrintSelfReport where
  ThreadsLine : Int
  QueueSizeLine : Nat
  RunningLine : String
deriving DecidableEq, Repr

/-- PrintSelf: reports `NumberOfThreads`, `InvokerQueue.size()`, and the line
`"Queue is" << (this->Running ? " not" : "") << " running"`, and leaves the
state as it found it (second component). -/
def PrintSelf (s : PoolState) : PrintSelfReport × PoolState :=
  ({ ThreadsLine := s.NumberOfThreads
     QueueSizeLine := s.InvokerQueue.length
     RunningLine := "Queue is" ++ (if s.Running then " not" else "") ++ " running" }
   , s)

/-- State set up by the constructor's initializer list: `Empty(true)`,
`Destroying(false)`, `Running(false)`, `NumberOfThreads(1)`,
`Threads(NumberOfThreads)` — one default-constructed handle, no spawned
thread. -/
def initPoolState : PoolState :=
  { InvokerQueue := [], Empty := true, Destroying := false, Running := false
    NumberOfThreads := 1, Threads := [none] }

/-- A pool object together with its (optional) internal controller; the
controller's own controller field is always null, which `constructPool`
renders by flattening one level. -/
structure Pool where
  state : PoolState
  Controller : Option PoolState
deriving DecidableEq, Repr

/-- The delegating constructor: initializer list, then — when a controller was
passed — `Controller->SetNumberOfThreads(1); Controller->Start();`.  The
controller has a null controller, so those two calls run their bodies
synchronously on the controller's state. -/
def constructPool (controller : Option PoolState) : Pool :=
  { state := initPoolState
    Controller := controller.map fun c => Start (SetNumberOfThreads c 1).state }

/-- vtkInternalController::New(): built through the `nullptr` constructor, so
no nested controller is created. -/
def newInternalController : Pool := constructPool none

/-- vtkThreadedCallbackQueue::New(): the public constructor delegates with a
fresh `vtkInternalController`. -/
def newQueue : Pool := constructPool (some newInternalController.state)

/-! Helper lemmas about the worker loop. -/

lemma Pop_eq_none_of_continue {s : PoolState} {threadId : Int}
    (h : Continue s threadId = false) : Pop s threadId = none := by
  simp [Pop, h]

lemma Continue_eq_false_of_nil {s : PoolState} (threadId : Int)
    (hq : s.InvokerQueue = []) : Continue s threadId = false := by
  simp [Continue, hq]

lemma Continue_eq_true_of_cons {s : PoolState} {threadId : Int}
    (hr : s.Running = true) (ht : threadId < s.NumberOfThreads)
    (hq : s.InvokerQueue ≠ []) : Continue s threadId = true := by
  simp [Continue, hr, ht, hq]

lemma Pop_cons {s : PoolState} {threadId : Int} {invoker : Nat} {rest : List Nat}
    (hq : s.InvokerQueue = invoker :: rest)
    (hc : Continue s threadId = true) :
    Pop s threadId =
      some (invoker, { s with InvokerQueue := rest, Empty := rest.isEmpty }) := by
  rw [Pop, if_pos hc, hq]

lemma Pop_inv {s : PoolState} {threadId : Int} {invoker : Nat} {s' : PoolState}
    (h : Pop s threadId = some (invoker, s')) :
    s.InvokerQueue = invoker :: s'.InvokerQueue ∧
    s'.Empty = s'.InvokerQueue.isEmpty ∧
    s'.Destroying = s.Destroying ∧ s'.Running = s.Running ∧
    s'.NumberOfThreads = s.NumberOfThreads ∧ s'.Threads = s.Threads := by
  rw [Pop] at h
  by_cases hc : Continue s threadId = true
  · rw [if_pos hc] at h
    cases hq : s.InvokerQueue with
    | nil => rw [hq] at h; exact absurd h (by simp)
    | cons a rest =>
      rw [hq] at h
      have ha : a = invoker ∧
          ({ s with InvokerQueue := rest, Empty := rest.isEmpty } : PoolState) = s' := by
        simpa using h
      obtain ⟨ha, hs⟩ := ha
      subst ha; subst hs
      simp [hq]
  · rw [if_neg hc] at h; exact absurd h (by simp)

lemma runWorkerFuel_of_continue_false (fuel : Nat) {threadId : Int} {s : PoolState}
    (h : Continue s threadId = false) : runWorkerFuel fuel threadId s = ([], s) := by
  cases fuel <;> simp [runWorkerFuel, Pop_eq_none_of_continue h]

lemma runWorker_of_continue_false {threadId : Int} {s : PoolState}
    (h : Continue s threadId = false) : runWorker threadId s = ([], s) :=
  runWorkerFuel_of_continue_false _ h

/-- Running one worker on a running pool whose id is in service pops every
queued invoker, in queue order, and leaves everything but the queue (and the
`Empty` flag) unchanged. -/
lemma runWorker_drain (threadId : Int) :
    ∀ (q : List Nat) (s : PoolState), s.InvokerQueue = q →
      s.Running = true → threadId < s.NumberOfThreads →
      (runWorker threadId s).1 = q ∧
      (runWorker threadId s).2.InvokerQueue = [] ∧
      (runWorker threadId s).2.Destroying = s.Destroying ∧
      (runWorker threadId s).2.Running = s.Running ∧
      (runWorker threadId s).2.NumberOfThreads = s.NumberOfThreads ∧
      (runWorker threadId s).2.Threads = s.Threads := by
  intro q
  induction q with
  | nil =>
    intro s hq hr ht
    have hc : Continue s threadId = false := Continue_eq_false_of_nil threadId hq
    rw [runWorker_of_continue_false hc]
    exact ⟨hq.symm ▸ rfl, hq, rfl, rfl, rfl, rfl⟩
  | cons invoker rest ih =>
    intro s hq hr ht
    have hc : Continue s threadId = true :=
      Continue_eq_true_of_cons hr ht (by rw [hq]; exact List.cons_ne_nil _ _)
    have hp := Pop_cons hq hc
    have hlen : s.InvokerQueue.length = rest.length + 1 := by rw [hq]; rfl
    have hrun : runWorker threadId s =
        (invoker ::
          (runWorker threadId { s with InvokerQueue := rest, Empty := rest.isEmpty }).1,
         (runWorker threadId { s with InvokerQueue := rest, Empty := rest.isEmpty }).2) := by
      rw [runWorker, hlen]
      simp only [runWorkerFuel, hp]
      rfl
    obtain ⟨h1, h2, h3, h4, h5, h6⟩ :=
      ih { s with InvokerQueue := rest, Empty := rest.isEmpty } rfl hr ht
    rw [hrun]
    exact ⟨by rw [h1], h2, h3, h4, h5, h6⟩

/-- Fuel beyond the queue length does not change `runWorkerFuel`: the fuel in
`runWorker` is an upper bound on the iterations of `while (this->Pop());`, not
a semantic truncation. -/
lemma runWorkerFuel_enough {threadId : Int} :
    ∀ (fuel : Nat) (s : PoolState), s.InvokerQueue.length ≤ fuel →
      runWorkerFuel fuel threadId s = runWorker threadId s := by
  intro fuel
  induction fuel with
  | zero =>
    intro s h
    have hq : s.InvokerQueue = [] :=
      List.eq_nil_of_length_eq_zero (Nat.le_zero.mp h)
    have hc : Continue s threadId = false := Continue_eq_false_of_nil threadId hq
    rw [runWorkerFuel_of_continue_false _ hc, runWorker_of_continue_false hc]
  | succ fuel ih =>
    intro s h
    cases hq : s.InvokerQueue with
    | nil =>
      have hc : Continue s threadId = false := Continue_eq_false_of_nil threadId hq
      rw [runWorkerFuel_of_continue_false _ hc, runWorker_of_continue_false hc]
    | cons invoker rest =>
      by_cases hc : Continue s threadId = true
      · have hp := Pop_cons hq hc
        have hlen : s.InvokerQueue.length = rest.length + 1 := by rw [hq]; rfl
        have h1 : runWorkerFuel (fuel + 1) threadId s =
            (invoker ::
              (runWorkerFuel fuel threadId
                { s with InvokerQueue := rest, Empty := rest.isEmpty }).1,
             (runWorkerFuel fuel threadId
                { s with InvokerQueue := rest, Empty := rest.isEmpty }).2) := by
          simp only [runWorkerFuel, hp]
        have h2 : runWorker threadId s =
            (invoker ::
              (runWorkerFuel rest.length threadId
                { s with InvokerQueue := rest, Empty := rest.isEmpty }).1,
             (runWorkerFuel rest.length threadId
                { s with InvokerQueue := rest, Empty := rest.isEmpty }).2) := by
          rw [runWorker, hlen]
          simp only [runWorkerFuel, hp]
        have h3 : runWorkerFuel fuel threadId
            { s with InvokerQueue := rest, Empty := rest.isEmpty } =
            runWorker threadId { s with InvokerQueue := rest, Empty := rest.isEmpty } :=
          ih _ (by
            have h' : rest.length + 1 ≤ fuel + 1 := hlen ▸ h
            simpa using Nat.le_of_succ_le_succ h')
        have h4 : runWorkerFuel rest.length threadId
            { s with InvokerQueue := rest, Empty := rest.isEmpty } =
            runWorker threadId { s with InvokerQueue := rest, Empty := rest.isEmpty } := rfl
        rw [h1, h2, h3, h4]
      · have hc' : Continue s threadId = false := by
          cases hcv : Continue s threadId with
          | false => rfl
          | true => exact absurd hcv hc
        rw [runWorkerFuel_of_continue_false _ hc', runWorker_of_continue_false hc']

/-! Frame lemmas for the administrative bodies. -/

lemma SetNumberOfThreads_frame (s : PoolState) (n : Int) :
    (SetNumberOfThreads s n).state.InvokerQueue = s.InvokerQueue ∧
    (SetNumberOfThreads s n).state.Empty = s.Empty ∧
    (SetNumberOfThreads s n).state.Running = s.Running ∧
    (SetNumberOfThreads s n).state.Destroying = s.Destroying := by
  rw [SetNumberOfThreads]
  by_cases h1 : ((s.Threads.length : Int) = n)
  · simp [h1]
  · by_cases h2 : s.Running
    · by_cases h3 : ((s.Threads.length : Int) < n) <;> simp [h1, h2, h3]
    · simp [h1, h2]

lemma Start_frame (s : PoolState) :
    (Start s).InvokerQueue = s.InvokerQueue ∧
    (Start s).Empty = s.Empty ∧
    (Start s).Destroying = s.Destroying ∧
    (Start s).NumberOfThreads = s.NumberOfThreads := by
  rw [Start]
  by_cases h : s.Running <;> simp [h]

lemma Stop_frame (s : PoolState) :
    (Stop s).state.InvokerQueue = s.InvokerQueue ∧
    (Stop s).state.Empty = s.Empty ∧
    (Stop s).state.Destroying = s.Destroying ∧
    (Stop s).state.NumberOfThreads = s.NumberOfThreads ∧
    (Stop s).state.Threads = s.Threads := by
  rw [Stop]
  by_cases h : s.Running <;> simp [h]

lemma destructorBody_frame (s : PoolState) :
    (destructorBody s).state.InvokerQueue = s.InvokerQueue ∧
    (destructorBody s).state.Empty = s.Empty ∧
    (destructorBody s).state.Running = s.Running ∧
    (destructorBody s).state.NumberOfThreads = s.NumberOfThreads ∧
    (destructorBody s).state.Threads = s.Threads := by
  rw [destructorBody]
  by_cases h : s.Running <;> simp [h]

/-- States a single pool object can reach: the constructor's initial state,
closed under submission, a worker's pop, and the serialized administrative
bodies.  Each constructor is one mutex-protected region of the source, so the
invariants proved by induction over `Reachable` hold at every lock release. -/
inductive Reachable : PoolState → Prop where
  | init : Reachable initPoolState
  | push (s : PoolState) (invoker : Nat) : Reachable s → Reachable (Push s invoker)
  | pop (s : PoolState) (threadId : Int) (invoker : Nat) (s' : PoolState) :
      Reachable s → Pop s threadId = some (invoker, s') → Reachable s'
  | start (s : PoolState) : Reachable s → Reachable (Start s)
  | stop (s : PoolState) : Reachable s → Reachable (Stop s).state
  | setThreads (s : PoolState) (n : Int) :
      Reachable s → Reachable (SetNumberOfThreads s n).state
  | destroy (s : PoolState) : Reachable s → Reachable (destructorBody s).state

/-- The `Empty` flag tracks queue emptiness in every reachable state. -/
lemma reachable_empty_eq {s : PoolState} (h : Reachable s) :
    s.Empty = s.InvokerQueue.isEmpty := by
  induction h with
  | init => rfl
  | push s invoker _ ih => simp [Push]
  | pop s threadId invoker s' _ hp ih => exact (Pop_inv hp).2.1
  | start s _ ih =>
    obtain ⟨h1, h2, _, _⟩ := Start_frame s
    rw [h1, h2, ih]
  | stop s _ ih =>
    obtain ⟨h1, h2, _, _, _⟩ := Stop_frame s
    rw [h1, h2, ih]
  | setThreads s n _ ih =>
    obtain ⟨h1, h2, _, _⟩ := SetNumberOfThreads_frame s n
    rw [h1, h2, ih]
  | destroy s _ ih =>
    obtain ⟨h1, h2, _, _, _⟩ := destructorBody_frame s
    rw [h1, h2, ih]

/-! Concrete pool states used by the claim theorems and witnesses. -/

/-- Running pool with one in-service worker (id 0) and an empty queue. -/
def growPoolEx : PoolState :=
  { InvokerQueue := [], Empty := true, Destroying := false, Running := true
    NumberOfThreads := 1, Threads := [some 0] }

/-- Running pool with two workers and two queued invokers. -/
def printPoolEx : PoolState :=
  { InvokerQueue := [5, 6], Empty := false, Destroying := false, Running := true
    NumberOfThreads := 2, Threads := [some 0, some 1] }

/-- Running pool with one worker and one pending invoker, about to be
destroyed. -/
def destroyPoolEx : PoolState :=
  { InvokerQueue := [7], Empty := false, Destroying := false, Running := true
    NumberOfThreads := 1, Threads := [some 0] }

/-- Running pool with two in-service workers (ids 0 and 1) and an empty
queue. -/
def shrinkPoolEx : PoolState :=
  { InvokerQueue := [], Empty := true, Destroying := false, Running := true
    NumberOfThreads := 2, Threads := [some 0, some 1] }

/-- Running pool with one worker and two queued invokers. -/
def stopPoolEx : PoolState :=
  { InvokerQueue := [3, 4], Empty := false, Destroying := false, Running := true
    NumberOfThreads := 1, Threads := [some 0] }

/-- Running pool with two workers and one queued invoker. -/
def zeroPoolEx : PoolState :=
  { InvokerQueue := [9], Empty := false, Destroying := false, Running := true
    NumberOfThreads := 2, Threads := [some 0, some 1] }

/-- C1: growing a running pool from 1 to 2 worker threads spawns the new
thread with ordinal id 0, not 1: the `generate_n` generator lambda computes
`Threads.size() - 1` before `back_insert_iterator` appends the new handle, so
the id duplicates the already-running worker's id 0 and no worker receives
id `n - 1 = 1`.  The claim says the new ids continue from `old_size`. -/
theorem C1_grow_spawns_stale_ids :
    growPoolEx.Running = true ∧ growPoolEx.Threads = [some 0] ∧
    (SetNumberOfThreads growPoolEx 2).state.Threads = [some 0, some 0] ∧
    (SetNumberOfThreads growPoolEx 2).state.Threads ≠ [some 0, some 1] := by
  decide

/-- C2 counterexample: the destructor body sets `Destroying` on a running pool
with a pending invoker, yet worker 0 still pops and runs that invoker, because
`ThreadWorker::Continue` does not consult `Destroying`.  This refutes the
claim that no worker pops or runs an invoker after `Destroying` is set. -/
theorem C2_pop_succeeds_after_destroying_set :
    (destructorBody destroyPoolEx).state.Destroying = true ∧
    Pop (destructorBody destroyPoolEx).state 0 =
      some (7, { InvokerQueue := [], Empty := true, Destroying := true
                 Running := true, NumberOfThreads := 1, Threads := [some 0] }) := by
  decide

/-- C3: on a running pool, `PrintSelf` reports the desired thread count and
the queue length correctly and modifies nothing, but its running/stopped line
is inverted: `(this->Running ? " not" : "")` prints `"Queue is not running"`
exactly when `Running` is true. -/
theorem C3_printself_inverts_running_status :
    printPoolEx.Running = true ∧
    (PrintSelf printPoolEx).1.RunningLine = "Queue is not running" ∧
    (PrintSelf printPoolEx).1.ThreadsLine = printPoolEx.NumberOfThreads ∧
    (PrintSelf printPoolEx).1.QueueSizeLine = printPoolEx.InvokerQueue.length ∧
    (PrintSelf printPoolEx).2 = printPoolEx := by
  refine ⟨rfl, rfl, rfl, rfl, rfl⟩

/-- C9: a newly constructed outer pool has `Running = false`,
`Destroying = false`, `Empty = true`, desired thread count 1, and one
default-constructed (unspawned) worker handle; its controller is configured to
exactly one thread and started (one spawned worker with id 0); and an internal
controller is itself built with a null controller field. -/
theorem C9_constructor_initial_state :
    newQueue.state =
      { InvokerQueue := [], Empty := true, Destroying := false, Running := false
        NumberOfThreads := 1, Threads := [none] } ∧
    newQueue.Controller =
      some { InvokerQueue := [], Empty := true, Destroying := false
             Running := true, NumberOfThreads := 1, Threads := [some 0] } ∧
    newInternalController.Controller = none ∧
    newInternalController.state = initPoolState := by
  decide

/-- C7: each administrative body is an idempotent no-op in its target state:
`Start` on a running pool returns the state unchanged, `Stop` on a non-running
pool changes nothing (and joins or notifies nobody), and `SetNumberOfThreads`
with the current worker-collection size changes nothing. -/
theorem C7_admin_idempotent (s : PoolState) (n : Int) :
    (s.Running = true → Start s = s) ∧
    (s.Running = false →
      Stop s = { state := s, joined := [], notifiedAll := false }) ∧
    ((s.Threads.length : Int) = n →
      SetNumberOfThreads s n = { state := s, joined := [], notifiedAll := false }) := by
  refine ⟨fun h => ?_, fun h => ?_, fun h => ?_⟩
  · rw [Start, if_pos h]
  · rw [Stop]; simp [h]
  · rw [SetNumberOfThreads]; simp [h]

/-- C7 witness: the idempotent no-ops evaluated on concrete pools. -/
theorem C7_admin_idempotent_witness :
    Start growPoolEx = growPoolEx ∧
    Stop initPoolState = { state := initPoolState, joined := [], notifiedAll := false } ∧
    SetNumberOfThreads growPoolEx 1 =
      { state := growPoolEx, joined := [], notifiedAll := false } :=
  ⟨(C7_admin_idempotent growPoolEx 1).1 (by decide),
   (C7_admin_idempotent initPoolState 1).2.1 (by decide),
   (C7_admin_idempotent growPoolEx 1).2.2 (by decide)⟩

/-- C6: `Continue` is true exactly when the worker's id is below the desired
thread count, the pool is running, and the queue is non-empty; whenever it is
false the worker's `while (this->Pop());` loop ends with no further pops; a
stopped pool, an out-of-range id, or a destroying pool whose queue has emptied
all make it false — and in the destroying case `OnHold` is false too, so the
worker is not blocked but terminates. -/
theorem C6_continue_characterization (s : PoolState) (threadId : Int) :
    (Continue s threadId = true ↔
      (threadId < s.NumberOfThreads ∧ s.Running = true ∧ s.InvokerQueue ≠ [])) ∧
    (Continue s threadId = false → runWorker threadId s = ([], s)) ∧
    (s.Running = false → Continue s threadId = false) ∧
    (s.NumberOfThreads ≤ threadId → Continue s threadId = false) ∧
    (s.Destroying = true → s.InvokerQueue = [] →
      Continue s threadId = false ∧ OnHold s threadId = false) := by
  refine ⟨?_, fun h => runWorker_of_continue_false h, fun h => ?_, fun h => ?_,
    fun hd hq => ⟨Continue_eq_false_of_nil threadId hq, ?_⟩⟩
  · simp [Continue, and_assoc]
  · simp [Continue, h]
  · simp [Continue, not_lt.mpr h]
  · simp [OnHold, hd]

/-- C6 witness: on a stopped pool with a pending invoker, `Continue` is false
for worker 0 and the worker loop ends without popping. -/
theorem C6_continue_characterization_witness :
    Continue (Stop stopPoolEx).state 0 = false ∧
    runWorker 0 (Stop stopPoolEx).state = ([], (Stop stopPoolEx).state) :=
  ⟨by decide, (C6_continue_characterization (Stop stopPoolEx).state 0).2.1 (by decide)⟩

/-- C8: in every reachable pool state the `Empty` flag is true exactly when
the invoker queue is empty; and the two queue-mutating steps — a worker's pop
and a submission — re-establish the flag within the very transition (one
mutex-protected region) that changes the queue. -/
theorem C8_empty_flag_invariant :
    (∀ s : PoolState, Reachable s → (s.Empty = true ↔ s.InvokerQueue = [])) ∧
    (∀ (s : PoolState) (threadId : Int) (invoker : Nat) (s' : PoolState),
      Pop s threadId = some (invoker, s') → s'.Empty = s'.InvokerQueue.isEmpty) ∧
    (∀ (s : PoolState) (invoker : Nat),
      (Push s invoker).Empty = (Push s invoker).InvokerQueue.isEmpty) := by
  refine ⟨fun s h => ?_, fun s threadId invoker s' hp => (Pop_inv hp).2.1,
    fun s invoker => by simp [Push]⟩
  rw [reachable_empty_eq h]
  simp

/-- C8 witness: the invariant evaluated at the constructor's initial state. -/
theorem C8_empty_flag_invariant_witness :
    initPoolState.Empty = true ↔ initPoolState.InvokerQueue = [] :=
  C8_empty_flag_invariant.1 initPoolState Reachable.init

/-- Dropping the first `m` elements of `List.range n` leaves the ids from `m`
up to `n`. -/
lemma range_drop (m n : Nat) : (List.range n).drop m = List.range' m (n - m) := by
  apply List.ext_getElem
  · simp
  · intro i h1 h2
    simp [List.getElem_drop, List.getElem_range, List.getElem_range']

/-- Unfolding of the shrink branch of `SetNumberOfThreads`: on a running pool,
with `numberOfThreads` neither equal to nor above the current vector size, the
body stores the new count, notifies all waiters, joins the handles from index
`numberOfThreads` on, and truncates the vector. -/
lemma SetNumberOfThreads_shrink {s : PoolState} {n : Int}
    (hr : s.Running = true) (hne : ¬ ((s.Threads.length : Int) = n))
    (hnl : ¬ ((s.Threads.length : Int) < n)) :
    SetNumberOfThreads s n =
      { state := { s with NumberOfThreads := n, Threads := s.Threads.take n.toNat }
        joined := s.Threads.drop n.toNat
        notifiedAll := true } := by
  rw [SetNumberOfThreads]
  simp [hne, hr, hnl]

/-- C4: shrinking a running pool whose worker slot `i` holds the worker with
ordinal id `i` (the state every `Start` establishes) to `0 ≤ n < old_size`
stores the new desired count, notifies all waiters, joins exactly the workers
with ordinal ids `n, n+1, …, old_size-1` — the `old_size - n` highest ids —
and truncates the handle collection to the first `n` workers; every joined id
is out of service afterwards (`Continue` false), so the joins complete. -/
theorem C4_shrink_joins_highest_ids (s : PoolState) (n : Int)
    (hr : s.Running = true)
    (hw : s.Threads = workerIds s.Threads.length)
    (h0 : 0 ≤ n) (hn : n < (s.Threads.length : Int)) :
    (SetNumberOfThreads s n).state.NumberOfThreads = n ∧
    (SetNumberOfThreads s n).notifiedAll = true ∧
    (SetNumberOfThreads s n).joined =
      (List.range' n.toNat (s.Threads.length - n.toNat)).map
        (fun i => some (Int.ofNat i)) ∧
    (SetNumberOfThreads s n).state.Threads = workerIds n.toNat ∧
    (SetNumberOfThreads s n).state.Threads.length = n.toNat ∧
    (∀ threadId : Int, n ≤ threadId →
      Continue (SetNumberOfThreads s n).state threadId = false) := by
  have hne : ¬ ((s.Threads.length : Int) = n) := by omega
  have hnl : ¬ ((s.Threads.length : Int) < n) := by omega
  have hle : n.toNat ≤ s.Threads.length := by omega
  rw [SetNumberOfThreads_shrink hr hne hnl]
  refine ⟨rfl, rfl, ?_, ?_, ?_, ?_⟩
  · conv_lhs => rw [hw]
    rw [workerIds, ← List.map_drop, range_drop]
  · conv_lhs => rw [hw]
    rw [workerIds, workerIds, ← List.map_take, List.take_range, Nat.min_eq_left hle]
  · conv_lhs => rw [hw]
    rw [workerIds, ← List.map_take, List.take_range, Nat.min_eq_left hle]
    simp
  · intro threadId ht
    simp [Continue, not_lt.mpr ht]

/-- C4 witness: shrinking a running two-worker pool to one thread joins
exactly the worker with id 1 and keeps the worker with id 0. -/
theorem C4_shrink_joins_highest_ids_witness :
    (SetNumberOfThreads shrinkPoolEx 1).joined = [some 1] ∧
    (SetNumberOfThreads shrinkPoolEx 1).state.Threads = [some 0] ∧
    (SetNumberOfThreads shrinkPoolEx 1).notifiedAll = true := by
  have h := C4_shrink_joins_highest_ids shrinkPoolEx 1 (by decide) (by decide)
    (by decide) (by decide)
  exact ⟨h.2.2.1.trans (by decide), h.2.2.2.1.trans (by decide), h.2.1⟩

/-- C2 (amended): destroying a running pool with pending queued invokers does
terminate cleanly — the destructor sets `Destroying` under the mutex, notifies
all waiters and joins every worker handle — but the still-pending invokers are
executed before the workers exit: `Continue` does not consult `Destroying`, so
each in-service worker keeps popping the remaining invokers in queue order and
terminates (rather than blocking: `OnHold` is false once the queue is empty
while `Destroying` is set, and `Pop` then returns false) only after the queue
has drained. -/
theorem C2_destruction_drains_then_terminates (s : PoolState) (threadId : Int)
    (hr : s.Running = true) (ht : threadId < s.NumberOfThreads) :
    (destructorBody s).state.Destroying = true ∧
    (destructorBody s).notifiedAll = true ∧
    (destructorBody s).joined = s.Threads ∧
    (runWorker threadId (destructorBody s).state).1 = s.InvokerQueue ∧
    (runWorker threadId (destructorBody s).state).2.InvokerQueue = [] ∧
    Pop (runWorker threadId (destructorBody s).state).2 threadId = none ∧
    OnHold (runWorker threadId (destructorBody s).state).2 threadId = false := by
  have hd : destructorBody s =
      { state := { s with Destroying := true }, joined := s.Threads
        notifiedAll := true } := by
    rw [destructorBody, if_pos hr]
  rw [hd]
  obtain ⟨h1, h2, h3, _, _, _⟩ :=
    runWorker_drain threadId s.InvokerQueue { s with Destroying := true } rfl hr ht
  refine ⟨rfl, rfl, rfl, h1, h2, ?_, ?_⟩
  · exact Pop_eq_none_of_continue (Continue_eq_false_of_nil threadId h2)
  · have hfd : (runWorker threadId
        ({ s with Destroying := true } : PoolState)).2.Destroying = true := by
      simpa using h3
    simp [OnHold, hfd]

/-- C2 witness: worker 0 of the destroyed one-worker pool pops and runs the
pending invoker, then is not blocked. -/
theorem C2_destruction_drains_then_terminates_witness :
    (runWorker 0 (destructorBody destroyPoolEx).state).1 =
      destroyPoolEx.InvokerQueue ∧
    OnHold (runWorker 0 (destructorBody destroyPoolEx).state).2 0 = false :=
  ⟨(C2_destruction_drains_then_terminates destroyPoolEx 0 (by decide)
      (by decide)).2.2.2.1,
   (C2_destruction_drains_then_terminates destroyPoolEx 0 (by decide)
      (by decide)).2.2.2.2.2.2⟩

/-- C5: `Stop` on a running pool flips `Running` under the mutex, notifies all
waiters and joins every worker, leaving the queue contents untouched; once
`Running` is false no worker can pop (`Pop` returns false for every id), so
`Stop` itself executes nothing; and after a subsequent `Start` a worker pops
and runs exactly the remaining invokers in their original order. -/
theorem C5_stop_preserves_queue (s : PoolState)
    (hr : s.Running = true) (hN : 0 < s.NumberOfThreads) :
    (Stop s).state.InvokerQueue = s.InvokerQueue ∧
    (Stop s).state.Running = false ∧
    (Stop s).notifiedAll = true ∧
    (Stop s).joined = s.Threads ∧
    (∀ threadId : Int, Pop (Stop s).state threadId = none) ∧
    (runWorker 0 (Start (Stop s).state)).1 = s.InvokerQueue ∧
    (runWorker 0 (Start (Stop s).state)).2.InvokerQueue = [] := by
  have hs : Stop s =
      { state := { s with Running := false }, joined := s.Threads
        notifiedAll := true } := by
    rw [Stop]; simp [hr]
  rw [hs]
  obtain ⟨d1, d2, _, _, _, _⟩ :=
    runWorker_drain 0 s.InvokerQueue
      (Start { s with Running := false }) rfl rfl hN
  exact ⟨rfl, rfl, rfl, rfl,
    fun threadId => Pop_eq_none_of_continue (by simp [Continue]), d1, d2⟩

/-- C5 witness: stopping a running pool with invokers 3 and 4 queued keeps
them queued, and restarting pops exactly them in order. -/
theorem C5_stop_preserves_queue_witness :
    (Stop stopPoolEx).state.InvokerQueue = stopPoolEx.InvokerQueue ∧
    (runWorker 0 (Start (Stop stopPoolEx).state)).1 = stopPoolEx.InvokerQueue :=
  ⟨(C5_stop_preserves_queue stopPoolEx (by decide) (by decide)).1,
   (C5_stop_preserves_queue stopPoolEx (by decide) (by decide)).2.2.2.2.2.1⟩

/-- C10: `SetNumberOfThreads` never changes `Running`, `Destroying` or the
queue contents, for any non-negative target; and `SetNumberOfThreads 0` on a
running pool joins and removes every worker handle yet leaves the pool
running with zero workers, after which submitted work stays queued because
no id can satisfy `Continue` against a zero desired count. -/
theorem C10_setthreads_frame_and_zero (s : PoolState) (n : Int) (h0 : 0 ≤ n) :
    (SetNumberOfThreads s n).state.Running = s.Running ∧
    (SetNumberOfThreads s n).state.Destroying = s.Destroying ∧
    (SetNumberOfThreads s n).state.InvokerQueue = s.InvokerQueue ∧
    (n = 0 → s.Running = true → s.Threads ≠ [] →
      (SetNumberOfThreads s n).joined = s.Threads ∧
      (SetNumberOfThreads s n).state.Threads = [] ∧
      (SetNumberOfThreads s n).state.Running = true ∧
      (∀ (invoker : Nat) (threadId : Int), 0 ≤ threadId →
        Pop (Push (SetNumberOfThreads s n).state invoker) threadId = none)) := by
  obtain ⟨f1, _, f3, f4⟩ := SetNumberOfThreads_frame s n
  refine ⟨f3, f4, f1, fun hn0 hr hth => ?_⟩
  subst hn0
  have hpos : 0 < s.Threads.length := List.length_pos.mpr hth
  have hne : ¬ ((s.Threads.length : Int) = 0) := by omega
  have hnl : ¬ ((s.Threads.length : Int) < 0) := by omega
  rw [SetNumberOfThreads_shrink hr hne hnl]
  refine ⟨by simp, by simp, hr, fun invoker threadId hti => ?_⟩
  refine Pop_eq_none_of_continue ?_
  simp [Continue, Push, not_lt.mpr hti]

/-- C10 witness: `SetNumberOfThreads 0` on a running two-worker pool joins
both workers, empties the handle vector, and leaves the pool running with its
invoker still queued. -/
theorem C10_setthreads_frame_and_zero_witness :
    (SetNumberOfThreads zeroPoolEx 0).state.InvokerQueue =
      zeroPoolEx.InvokerQueue ∧
    (SetNumberOfThreads zeroPoolEx 0).joined = zeroPoolEx.Threads ∧
    (SetNumberOfThreads zeroPoolEx 0).state.Threads = [] ∧
    (SetNumberOfThreads zeroPoolEx 0).state.Running = true :=
  ⟨(C10_setthreads_frame_and_zero zeroPoolEx 0 (by decide)).2.2.1,
   ((C10_setthreads_frame_and_zero zeroPoolEx 0 (by decide)).2.2.2 rfl
      (by decide) (by decide)).1,
   ((C10_setthreads_frame_and_zero zeroPoolEx 0 (by decide)).2.2.2 rfl
      (by decide) (by decide)).2.1,
   ((C10_setthreads_frame_and_zero zeroPoolEx 0 (by decide)).2.2.2 rfl
      (by decide) (by decide)).2.2.1⟩

end vtkThreadedCallbackQueue
